import Mathlib

/-!
Verification of the PS/2 keyboard decoder from `src/ps2kbd.c`.

The decoder drains single scancode bytes from a hardware FIFO and keeps
three pieces of mutable state: a key-release flag (`release`), a shift
latch (`shift`) and the pending translated character (`ascii`).  We embed
the FIFO as a list of bytes and the decode step (the `switch` statement in
`kbd_ready`) as a function on an explicit state record.  The C tables
`lower` and `upper` each have exactly 128 entries while the scancode is a
full byte, so the table read `(shift ? upper : lower)[code]` is a fallible
operation: we embed it with `List.get?`, and a decode step that would read
past the end of a table is modelled as `none` (undefined behaviour in the
C source).
-/

set_option maxRecDepth 20000

namespace Ps2Kbd

/-- Decoder session state: the three static variables of `ps2kbd.c`
(`release`, `shift`, `ascii`).  `ascii` is a byte, 0 meaning "no pending
character". -/
structure KbdState where
  release : Bool
  shift : Bool
  ascii : Nat
deriving Repr, DecidableEq

/-- Constant BS (0x8) from ps2kbd.c. -/
def BS : Nat := 0x8
/-- Constant TAB (0x9) from ps2kbd.c. -/
def TAB : Nat := 0x9
/-- Constant LF (0xA) from ps2kbd.c. -/
def LF : Nat := 0xA
/-- Constant ESC (0x1B) from ps2kbd.c. -/
def ESC : Nat := 0x1B

/-- The 128-entry unshifted translation table `lower` of `ps2kbd.c`,
16 entries per row as in the source, ASCII codes written in decimal. -/
def lower : List Nat := [
  0, 0, 0, 0, 0, 0, 0, 0, 0, 0, 0, 0, 0, TAB, 96, 0,
  0, 0, 0, 0, 0, 113, 49, 0, 0, 0, 122, 115, 97, 119, 50, 0,
  0, 99, 120, 100, 101, 52, 51, 0, 0, 32, 118, 102, 116, 114, 53, 0,
  0, 110, 98, 104, 103, 121, 54, 0, 0, 0, 109, 106, 117, 55, 56, 0,
  0, 44, 107, 105, 111, 48, 57, 0, 0, 46, 47, 108, 59, 112, 45, 0,
  0, 0, 39, 0, 91, 61, 0, 0, 0, 0, LF, 93, 0, 92, 0, 0,
  0, 0, 0, 0, 0, 0, BS, 0, 0, 0, 0, 0, 0, 0, 0, 0,
  0, 0, 0, 0, 0, 0, ESC, 0, 0, 0, 0, 0, 0, 0, 0, 0]

/-- The 128-entry shifted translation table `upper` of `ps2kbd.c`. -/
def upper : List Nat := [
  0, 0, 0, 0, 0, 0, 0, 0, 0, 0, 0, 0, 0, TAB, 126, 0,
  0, 0, 0, 0, 0, 81, 33, 0, 0, 0, 90, 83, 65, 87, 64, 0,
  0, 67, 88, 68, 69, 36, 35, 0, 0, 32, 86, 70, 84, 82, 37, 0,
  0, 78, 66, 72, 71, 89, 94, 0, 0, 0, 77, 74, 85, 38, 42, 0,
  0, 60, 75, 73, 79, 41, 40, 0, 0, 62, 63, 76, 58, 80, 95, 0,
  0, 0, 34, 0, 123, 43, 0, 0, 0, 0, LF, 125, 0, 124, 0, 0,
  0, 0, 0, 0, 0, 0, BS, 0, 0, 0, 0, 0, 0, 0, 0, 0,
  0, 0, 0, 0, 0, 0, ESC, 0, 0, 0, 0, 0, 0, 0, 0, 0]

/-- Initial decoder state: the C statics are zero-initialised. -/
def initState : KbdState := { release := false, shift := false, ascii := 0 }

/-- One decode step: the `switch (code)` statement of `kbd_ready`
(src/ps2kbd.c lines 92-110), applied to one scancode byte pulled from the
FIFO.  `none` models the undefined behaviour of reading past the end of
the 128-entry table. -/
def step (st : KbdState) (code : Nat) : Option KbdState :=
  if code = 0xF0 then
    -- case 0xF0: release = 1; break;
    some { st with release := true }
  else if code = 0x12 ∨ code = 0x59 then
    -- case 0x12 / case 0x59
    if st.release then
      some { st with shift := false, release := false }
    else
      some { st with shift := true }
  else
    -- default: if (!release) ascii = (shift ? upper : lower)[code]; release = 0;
    if st.release then
      some { st with release := false }
    else
      match (if st.shift then upper else lower).get? code with
      | some a => some { st with ascii := a, release := false }
      | none => none

/-- Model of kbd_ready (src/ps2kbd.c lines 85-112): if a character is already
pending, return it without touching the FIFO; if the FIFO is empty return
0; otherwise pull one scancode, run the decode step, and return the
(possibly updated) pending character.  The result is the returned value,
the new state and the remaining FIFO contents. -/
def kbd_ready (st : KbdState) (fifo : List Nat) :
    Option (Nat × KbdState × List Nat) :=
  if st.ascii ≠ 0 then
    some (st.ascii, st, fifo)
  else
    match fifo with
    | [] => some (0, st, [])
    | c :: rest => (step st c).map (fun st2 => (st2.ascii, st2, rest))

/-- Model of kbd_getc (src/ps2kbd.c lines 114-120): spin on `kbd_ready` until it
returns non-zero, then clear the pending character and return it.  When
the FIFO runs dry with no pending character the C loop spins forever;
that (and a decode step hitting undefined behaviour) is modelled as
`none`. -/
def kbd_getc (st : KbdState) : List Nat → Option (Nat × KbdState × List Nat)
  | [] =>
    if st.ascii ≠ 0 then some (st.ascii, { st with ascii := 0 }, []) else none
  | c :: rest =>
    if st.ascii ≠ 0 then
      some (st.ascii, { st with ascii := 0 }, c :: rest)
    else
      match step st c with
      | some st2 => kbd_getc st2 rest
      | none => none

/-- Feed a list of scancodes through the decode step one by one. -/
def runCodes (st : KbdState) : List Nat → Option KbdState
  | [] => some st
  | c :: rest =>
    match step st c with
    | some st2 => runCodes st2 rest
    | none => none

/-- C1: the translation tables have exactly 128 entries, yet a scancode
byte such as 0x80 — which is not 0xF0, 0x12 or 0x59 and reaches the
lookup step with pending_release false — is used directly as the table
index, which is out of range: the lookup has no defined result (the
decode step is undefined behaviour there), contradicting the claim that
out-of-range scancodes are rejected, clamped or covered by the table. -/
theorem c1_out_of_range_scancode_faults :
    lower.length = 128 ∧ upper.length = 128 ∧
    lower.get? 0x80 = none ∧ step initState 0x80 = none := by
  decide

/-- C5: from the initial state, the scancode sequence 0xF0, 0x1C leaves
no pending character, while 0x1C alone yields 97 (letter a), and yields
65 (letter A) when the shift latch is set. -/
theorem c5_release_suppression :
    (runCodes initState [0xF0, 0x1C]).map KbdState.ascii = some 0 ∧
    (runCodes initState [0x1C]).map KbdState.ascii = some 97 ∧
    (runCodes { initState with shift := true } [0x1C]).map KbdState.ascii =
      some 65 := by
  decide

/-- C7: from the initial state with shift never engaged, draining the
scancode stream 0x1C, 0xF0, 0x1C, 0x32 with two kbd_getc calls yields
exactly 97 (letter a) and then 98 (letter b). -/
theorem c7_end_to_end_ab :
    kbd_getc initState [0x1C, 0xF0, 0x1C, 0x32] =
      some (97, initState, [0xF0, 0x1C, 0x32]) ∧
    kbd_getc initState [0xF0, 0x1C, 0x32] = some (98, initState, []) := by
  decide

/-- C9: the control codes BS (0x08), TAB (0x09), LF (0x0A) and ESC (0x1B)
sit at their key scancode indices 0x66, 0x0D, 0x5A and 0x76 with the same
value in both tables, and decoding each of those keys stores the same
character whether or not the shift latch is set. -/
theorem c9_control_codes_shift_invariant :
    (lower.get? 0x66 = some BS ∧ upper.get? 0x66 = some BS) ∧
    (lower.get? 0x0D = some TAB ∧ upper.get? 0x0D = some TAB) ∧
    (lower.get? 0x5A = some LF ∧ upper.get? 0x5A = some LF) ∧
    (lower.get? 0x76 = some ESC ∧ upper.get? 0x76 = some ESC) ∧
    (step initState 0x66).map KbdState.ascii =
      (step { initState with shift := true } 0x66).map KbdState.ascii ∧
    (step initState 0x0D).map KbdState.ascii =
      (step { initState with shift := true } 0x0D).map KbdState.ascii ∧
    (step initState 0x5A).map KbdState.ascii =
      (step { initState with shift := true } 0x5A).map KbdState.ascii ∧
    (step initState 0x76).map KbdState.ascii =
      (step { initState with shift := true } 0x76).map KbdState.ascii := by
  decide

/-- C2 counterexample: scancode 0x80 is none of 0xF0, 0x12, 0x59, yet
decoding it from the initial state (pending_release false, shift false)
does not store any table entry as the pending character: the 128-entry
table has no entry at index 0x80 and the decode step has no defined
result there. -/
theorem c2_counterexample_x80 :
    lower.get? 0x80 = none ∧
    ¬∃ st2, step initState 0x80 = some st2 := by
  constructor
  · decide
  · rintro ⟨st2, h⟩
    have : (none : Option KbdState) = some st2 := by
      rw [← h]; decide
    exact Option.noConfusion this

/-- C3 counterexample: in a state with pending_release true, processing
another 0xF0 scancode leaves pending_release true, not false as the
claim states. -/
theorem c3_counterexample_double_f0 :
    (step { release := true, shift := false, ascii := 0 } 0xF0).map
      KbdState.release = some true := by
  decide

/-- C2 (amended): for every scancode s below 128 and not equal to 0xF0,
0x12 or 0x59, decoding s in any state with pending_release false stores
the entry of lower at index s as the pending character when the shift
latch is clear, and the entry of upper at index s when it is set. -/
theorem c2_amended_table_translation (st : KbdState) (s : Nat)
    (hs : s < 128) (h1 : s ≠ 0xF0) (h2 : s ≠ 0x12) (h3 : s ≠ 0x59)
    (hr : st.release = false) :
    (st.shift = false → ∃ a, lower.get? s = some a ∧
      step st s = some { st with ascii := a, release := false }) ∧
    (st.shift = true → ∃ a, upper.get? s = some a ∧
      step st s = some { st with ascii := a, release := false }) := by
  have hll : lower.length = 128 := by decide
  have hul : upper.length = 128 := by decide
  constructor
  · intro hsh
    have hlt : s < lower.length := by rw [hll]; exact hs
    refine ⟨lower[s], ?_, ?_⟩
    · rw [List.get?_eq_getElem?, List.getElem?_eq_getElem hlt]
    · simp [step, h1, h2, h3, hr, hsh, List.getElem?_eq_getElem hlt]
  · intro hsh
    have hlt : s < upper.length := by rw [hul]; exact hs
    refine ⟨upper[s], ?_, ?_⟩
    · rw [List.get?_eq_getElem?, List.getElem?_eq_getElem hlt]
    · simp [step, h1, h2, h3, hr, hsh, List.getElem?_eq_getElem hlt]

/-- Witness for C2 (amended) at scancode 0x1C from the initial state. -/
theorem c2_amended_witness :
    (initState.shift = false → ∃ a, lower.get? 0x1C = some a ∧
      step initState 0x1C = some { initState with ascii := a, release := false }) ∧
    (initState.shift = true → ∃ a, upper.get? 0x1C = some a ∧
      step initState 0x1C = some { initState with ascii := a, release := false }) :=
  c2_amended_table_translation initState 0x1C (by decide) (by decide)
    (by decide) (by decide) rfl

/-- C3 (amended): in a state with pending_release true, processing any
scancode other than 0xF0 — a shift code or an ordinary code — leaves
pending_release false; a second 0xF0 instead re-arms it. -/
theorem c3_amended_release_cleared (st : KbdState) (code : Nat)
    (hrel : st.release = true) (hc : code ≠ 0xF0) :
    (step st code).map KbdState.release = some false := by
  by_cases h12 : code = 0x12 ∨ code = 0x59
  · simp [step, hc, h12, hrel]
  · simp [step, hc, h12, hrel]

/-- Witness for C3 (amended): a release-pending state followed by the
ordinary scancode 0x1C clears pending_release. -/
theorem c3_amended_witness :
    (step { release := true, shift := false, ascii := 0 } 0x1C).map
      KbdState.release = some false :=
  c3_amended_release_cleared { release := true, shift := false, ascii := 0 }
    0x1C rfl (by decide)

/-- C4: while the pending character is non-zero, kbd_ready returns that
same character, consumes no scancode from the FIFO and leaves the whole
state unchanged; kbd_getc then returns it and clears only the pending
character, again consuming no scancode. -/
theorem c4_pending_char_stalls (st : KbdState) (fifo : List Nat)
    (h : st.ascii ≠ 0) :
    kbd_ready st fifo = some (st.ascii, st, fifo) ∧
    kbd_getc st fifo = some (st.ascii, { st with ascii := 0 }, fifo) := by
  constructor
  · unfold kbd_ready
    rw [if_pos h]
  · cases fifo <;> simp [kbd_getc, h]

/-- Witness for C4: a state holding character 97 with a scancode queued. -/
theorem c4_witness :
    kbd_ready { release := false, shift := false, ascii := 97 } [0x32] =
      some (97, { release := false, shift := false, ascii := 97 }, [0x32]) ∧
    kbd_getc { release := false, shift := false, ascii := 97 } [0x32] =
      some (97, { release := false, shift := false, ascii := 0 }, [0x32]) :=
  c4_pending_char_stalls { release := false, shift := false, ascii := 97 }
    [0x32] (by decide)

/-- C6: kbd_getc returns the decoded character and hands back a state
whose pending character is cleared to zero, exactly once per call; with
two ordinary key-press scancodes queued, two successive kbd_getc calls
return the two decoded characters in press order. -/
theorem c6_getc_two_presses (a b ca cb : Nat)
    (ha1 : a ≠ 0xF0) (ha2 : a ≠ 0x12) (ha3 : a ≠ 0x59)
    (hb1 : b ≠ 0xF0) (hb2 : b ≠ 0x12) (hb3 : b ≠ 0x59)
    (hga : lower.get? a = some ca) (hca : ca ≠ 0)
    (hgb : lower.get? b = some cb) (hcb : cb ≠ 0) :
    kbd_getc initState [a, b] = some (ca, initState, [b]) ∧
    kbd_getc initState [b] = some (cb, initState, []) := by
  rw [List.get?_eq_getElem?] at hga hgb
  constructor
  · simp [kbd_getc, step, initState, ha1, ha2, ha3, hga, hca]
  · simp [kbd_getc, step, initState, hb1, hb2, hb3, hgb, hcb]

/-- Witness for C6: scancodes 0x1C and 0x32 queued yield 97 then 98. -/
theorem c6_witness :
    kbd_getc initState [0x1C, 0x32] = some (97, initState, [0x32]) ∧
    kbd_getc initState [0x32] = some (98, initState, []) :=
  c6_getc_two_presses 0x1C 0x32 97 98 (by decide) (by decide) (by decide)
    (by decide) (by decide) (by decide) (by decide) (by decide) (by decide)
    (by decide)

/-- C8: from any state with pending_release false, processing two
consecutive 0x12 scancodes leaves the shift latch true, with no toggle
back to false. -/
theorem c8_shift_idempotent (st : KbdState) (hr : st.release = false) :
    (step st 0x12).bind (fun st2 => step st2 0x12) =
      some { st with shift := true } := by
  simp [step, hr]

/-- Witness for C8 from the initial state. -/
theorem c8_witness :
    (step initState 0x12).bind (fun st2 => step st2 0x12) =
      some { initState with shift := true } :=
  c8_shift_idempotent initState rfl

/-- C10: whenever a decode step succeeds, the resulting pending_release
flag is true exactly when the scancode just consumed was 0xF0. -/
theorem c10_release_tracks_f0 (st st2 : KbdState) (code : Nat)
    (h : step st code = some st2) :
    st2.release = true ↔ code = 0xF0 := by
  unfold step at h
  by_cases hf : code = 0xF0
  · rw [if_pos hf] at h
    injection h with h2
    subst h2
    simpa using hf
  · rw [if_neg hf] at h
    by_cases hs : code = 0x12 ∨ code = 0x59
    · rw [if_pos hs] at h
      by_cases hrel : st.release = true
      · rw [if_pos hrel] at h
        injection h with h2
        subst h2
        simp [hf]
      · rw [if_neg hrel] at h
        injection h with h2
        subst h2
        simp only [Bool.not_eq_true] at hrel
        simp [hrel, hf]
    · rw [if_neg hs] at h
      by_cases hrel : st.release = true
      · rw [if_pos hrel] at h
        injection h with h2
        subst h2
        simp [hf]
      · rw [if_neg hrel] at h
        split at h
        · injection h with h2
          subst h2
          simp [hf]
        · exact Option.noConfusion h

/-- Witness for C10: consuming 0xF0 from the initial state sets the
flag; the right-to-left direction of the equivalence then gives it. -/
theorem c10_witness :
    (KbdState.mk true false 0).release = true ↔ (0xF0 : Nat) = 0xF0 :=
  c10_release_tracks_f0 initState (KbdState.mk true false 0) 0xF0 (by decide)

end Ps2Kbd
